import Mathlib

/-!
Verification of the driver script `view-meal-plan.py`.

The script is a single linear sequence of Playwright calls.  We embed it as a
fixed list of actions (`scriptBody`, a literal transcription of the module
body) together with an execution semantics: an environment oracle `ok`
decides, for each fallible browser operation, whether it goes through;
proceeds sequentially and halts at the first failing action, mirroring the
fact that in the source any exception is unhandled and terminates the
process.  `print` and `page.wait_for_timeout` are process-local (stdout
write, plain sleep) and do not depend on the environment, so the embedding
treats them as infallible; every call that touches the browser or the
filesystem (launch, new_context, new_page, goto, wait_for_load_state, fill,
click, screenshot, close) is fallible through the oracle.

The source wraps everything in `with sync_playwright() as p`: the context
manager runs its cleanup (stopping the driver, which terminates the browser
process and all its contexts) on every exit path, including exceptions.
This is modelled by `fullTrace`, which appends the cleanup action
`stopDriver` to whatever prefix of the body executed.
-/

/-- The observable actions the script can perform, one constructor per kind
of Playwright / stdout / filesystem call appearing in the source. -/
inductive Act where
  | launch (headless : Bool)
  | newContext (width height : Nat)
  | newPage
  | print (msg : String)
  | goto (url : String)
  | waitForLoadState (state : String)
  | fill (selector value : String)
  | click (selector : String)
  | waitForTimeout (ms : Nat)
  | screenshot (path : String) (fullPage : Bool)
  | closeBrowser
  | stopDriver
  deriving DecidableEq

/-- `BASE_URL = "http://localhost:3456"` (source line 6). -/
def BASE_URL : String := "http://localhost:3456"

/-- `TEST_EMAIL = "test-e2e-b1549ea6@example.com"` (source line 8). -/
def TEST_EMAIL : String := "test-e2e-b1549ea6@example.com"

/-- The body of the `with sync_playwright()` block, in source order
(lines 11 to 38), transcribed action by action. -/
def scriptBody : List Act :=
  [ Act.launch false,
    Act.newContext 1600 1000,
    Act.newPage,
    Act.print "Signing in...",
    Act.goto (BASE_URL ++ "/dev-signin"),
    Act.waitForLoadState "networkidle",
    Act.fill "input[type=\"email\"]" TEST_EMAIL,
    Act.click "button:has-text(\"Sign In\")",
    Act.waitForTimeout 2000,
    Act.print ("Signed in as " ++ TEST_EMAIL),
    Act.print "Navigating to meal plan...",
    Act.goto (BASE_URL ++ "/meal-plan"),
    Act.waitForLoadState "networkidle",
    Act.waitForTimeout 2000,
    Act.screenshot "meal-plan-view.png" true,
    Act.print "Screenshot saved to meal-plan-view.png",
    Act.print "Browser open for 60 seconds - you can interact with it!",
    Act.waitForTimeout 60000,
    Act.closeBrowser ]

/-- Which actions can fail: every browser or filesystem call can raise; a
stdout `print` and a plain sleep (`wait_for_timeout`) cannot. -/
def fallible : Act → Bool
  | Act.print _ => false
  | Act.waitForTimeout _ => false
  | _ => true

/-- Whether action `a` goes through under environment oracle `ok`: infallible
actions always succeed, fallible ones succeed exactly when the oracle says
so. -/
def stepOk (ok : Act → Bool) (a : Act) : Bool :=
  !fallible a || ok a

/-- Sequential execution of a list of actions: the performed prefix.  The
first failing action is not performed and nothing after it runs, modelling
the unhandled exception terminating the linear script. -/
def execEvents (ok : Act → Bool) : List Act → List Act
  | [] => []
  | a :: rest => if stepOk ok a then a :: execEvents ok rest else []

/-- Whether the whole list of actions runs to completion under `ok`. -/
def execSucceeds (ok : Act → Bool) : List Act → Bool
  | [] => true
  | a :: rest => stepOk ok a && execSucceeds ok rest

/-- Result of one invocation of the script: the body actions that actually
ran, the cleanup actions (run on every exit path by the `with` statement),
and the process exit code (0 on completion, 1 on an unhandled error). -/
structure RunResult where
  events : List Act
  cleanup : List Act
  exitCode : Nat
  deriving DecidableEq

/-- One run of `view-meal-plan.py` under environment oracle `ok`. -/
def runScript (ok : Act → Bool) : RunResult :=
  { events := execEvents ok scriptBody
    cleanup := [Act.stopDriver]
    exitCode := if execSucceeds ok scriptBody then 0 else 1 }

/-- The complete observable trace of a run: the executed body prefix
followed by the `with`-block cleanup, which runs unconditionally. -/
def fullTrace (ok : Act → Bool) : List Act :=
  (runScript ok).events ++ (runScript ok).cleanup

/-- Does an action release the browser process and its page/context?  An
explicit `browser.close()` does, and so does stopping the Playwright driver
(the driver process owns the browser it launched). -/
def releasesBrowser : Act → Bool
  | Act.closeBrowser => true
  | Act.stopDriver => true
  | _ => false

/-- Effect of one action on the filesystem, modelled as a partial map from
paths to file contents; `shot` is the image the browser would produce in
this run.  Only `page.screenshot` writes to disk, overwriting the file at
its path. -/
def applyEvent (shot : String) (fs : String → Option String) : Act → (String → Option String)
  | Act.screenshot path _ => fun q => if q = path then some shot else fs q
  | _ => fs

/-- Filesystem after a run: fold the performed events over the initial
filesystem. -/
def runFS (ok : Act → Bool) (shot : String) (fs : String → Option String) :
    String → Option String :=
  ((runScript ok).events).foldl (applyEvent shot) fs

-- ### Basic lemmas about the execution semantics

/-- The executed events form an initial segment of the action list. -/
lemma execEvents_eq_take (ok : Act → Bool) :
    ∀ l : List Act, ∃ n, execEvents ok l = l.take n := by
  intro l
  induction l with
  | nil => exact ⟨0, rfl⟩
  | cons a rest ih =>
    obtain ⟨n, hn⟩ := ih
    by_cases h : stepOk ok a = true
    · exact ⟨n + 1, by simp [execEvents, h, hn]⟩
    · exact ⟨0, by simp [execEvents, h]⟩

/-- Every performed event is an element of the action list. -/
lemma mem_of_mem_execEvents (ok : Act → Bool) :
    ∀ l : List Act, ∀ x ∈ execEvents ok l, x ∈ l := by
  intro l
  induction l with
  | nil => intro x hx; simp [execEvents] at hx
  | cons a rest ih =>
    intro x hx
    by_cases h : stepOk ok a = true
    · simp only [execEvents, h, if_pos] at hx
      rcases List.mem_cons.mp hx with h2 | h2
      · simp [h2]
      · exact List.mem_cons_of_mem a (ih x h2)
    · simp [execEvents, h] at hx

/-- If every action of the list goes through, the whole list is performed. -/
lemma execEvents_of_succeeds (ok : Act → Bool) :
    ∀ l : List Act, execSucceeds ok l = true → execEvents ok l = l := by
  intro l
  induction l with
  | nil => intro _; rfl
  | cons a rest ih =>
    intro h
    simp only [execSucceeds, Bool.and_eq_true] at h
    simp [execEvents, h.1, ih h.2]

/-- A failing action somewhere in the list makes the run fail. -/
lemma execSucceeds_false_of_mem (ok : Act → Bool) (a : Act)
    (ha : stepOk ok a = false) :
    ∀ l : List Act, a ∈ l → execSucceeds ok l = false := by
  intro l
  induction l with
  | nil => intro h; simp at h
  | cons b rest ih =>
    intro h
    rcases List.mem_cons.mp h with h | h
    · simp [execSucceeds, ← h, ha]
    · simp [execSucceeds, ih h]

/-- Nothing that lies strictly beyond a failing action is ever performed. -/
lemma not_mem_execEvents_split (ok : Act → Bool) (x a : Act)
    (ha : stepOk ok a = false) :
    ∀ l1 l2 : List Act, x ∉ l1 → x ∉ execEvents ok (l1 ++ a :: l2) := by
  intro l1
  induction l1 with
  | nil =>
    intro l2 _
    simp [execEvents, ha]
  | cons b rest ih =>
    intro l2 hx
    by_cases hb : stepOk ok b = true
    · simp only [List.cons_append, execEvents, hb, if_pos]
      intro hmem
      rcases List.mem_cons.mp hmem with h | h
      · exact hx (by simp [h])
      · exact ih l2 (fun hc => hx (List.mem_cons_of_mem b hc)) h
    · simp [List.cons_append, execEvents, hb]

/-- An index lookup that returns a value witnesses membership. -/
lemma mem_of_lookup {α : Type} (l : List α) (n : Nat) (a : α) (h : l[n]? = some a) :
    a ∈ l := by
  obtain ⟨hlt, rfl⟩ := List.getElem?_eq_some.mp h
  exact List.getElem_mem hlt

/-- If a performed trace contains an action that occurs nowhere earlier in
the program, execution ran the whole program up to and including that
action. -/
lemma execEvents_reaches (ok : Act → Bool) (x : Act) :
    ∀ l1 l2 : List Act, x ∉ l1 → x ∈ execEvents ok (l1 ++ x :: l2) →
      execEvents ok (l1 ++ x :: l2) = l1 ++ x :: execEvents ok l2 := by
  intro l1
  induction l1 with
  | nil =>
    intro l2 _ hmem
    by_cases h : stepOk ok x = true
    · simp [execEvents, h]
    · simp [execEvents, h] at hmem
  | cons b rest ih =>
    intro l2 hx hmem
    by_cases hb : stepOk ok b = true
    · simp only [List.cons_append, execEvents, hb, if_pos] at hmem ⊢
      rcases List.mem_cons.mp hmem with h2 | h2
      · exact absurd (by simp [h2]) hx
      · exact congrArg (List.cons b) (ih l2 (fun hc => hx (List.mem_cons_of_mem b hc)) h2)
    · simp [List.cons_append, execEvents, hb] at hmem

/-- The exit code is zero exactly when every action of the body succeeded. -/
lemma exitCode_eq_zero (ok : Act → Bool) :
    (runScript ok).exitCode = 0 ↔ execSucceeds ok scriptBody = true := by
  simp only [runScript]
  by_cases h : execSucceeds ok scriptBody = true
  · simp [h]
  · simp [h]

/-- Is an action a screenshot capture? -/
def isShot : Act → Bool
  | Act.screenshot _ _ => true
  | _ => false

/-- Non-screenshot actions leave the filesystem unchanged. -/
lemma applyEvent_not_shot (shot : String) (fs : String → Option String) (a : Act)
    (h : isShot a = false) : applyEvent shot fs a = fs := by
  cases a <;> simp_all [applyEvent, isShot]

/-- A trace without screenshot actions leaves the filesystem unchanged. -/
lemma foldl_applyEvent_of_no_shot (shot : String) :
    ∀ es : List Act, (∀ a ∈ es, isShot a = false) →
      ∀ fs : String → Option String, es.foldl (applyEvent shot) fs = fs := by
  intro es
  induction es with
  | nil => intro _ fs; rfl
  | cons a rest ih =>
    intro hno fs
    rw [List.foldl_cons, applyEvent_not_shot shot fs a (hno a (List.mem_cons_self a rest))]
    exact ih (fun b hb => hno b (List.mem_cons_of_mem a hb)) fs

-- ### Decompositions of the script body used by the claim proofs

/-- The actions preceding the `page.screenshot` call (source lines 11 to 28). -/
def preShot : List Act :=
  [ Act.launch false,
    Act.newContext 1600 1000,
    Act.newPage,
    Act.print "Signing in...",
    Act.goto (BASE_URL ++ "/dev-signin"),
    Act.waitForLoadState "networkidle",
    Act.fill "input[type=\"email\"]" TEST_EMAIL,
    Act.click "button:has-text(\"Sign In\")",
    Act.waitForTimeout 2000,
    Act.print ("Signed in as " ++ TEST_EMAIL),
    Act.print "Navigating to meal plan...",
    Act.goto (BASE_URL ++ "/meal-plan"),
    Act.waitForLoadState "networkidle",
    Act.waitForTimeout 2000 ]

/-- The actions following the `page.screenshot` call (source lines 32 to 38). -/
def postShot : List Act :=
  [ Act.print "Screenshot saved to meal-plan-view.png",
    Act.print "Browser open for 60 seconds - you can interact with it!",
    Act.waitForTimeout 60000,
    Act.closeBrowser ]

lemma scriptBody_shot_split :
    scriptBody = preShot ++ Act.screenshot "meal-plan-view.png" true :: postShot := rfl

/-- The actions preceding the email `fill` (source lines 11 to 18). -/
def preFill : List Act :=
  [ Act.launch false,
    Act.newContext 1600 1000,
    Act.newPage,
    Act.print "Signing in...",
    Act.goto (BASE_URL ++ "/dev-signin"),
    Act.waitForLoadState "networkidle" ]

/-- The actions following the email `fill` (source lines 20 to 38). -/
def postFill : List Act :=
  [ Act.click "button:has-text(\"Sign In\")",
    Act.waitForTimeout 2000,
    Act.print ("Signed in as " ++ TEST_EMAIL),
    Act.print "Navigating to meal plan...",
    Act.goto (BASE_URL ++ "/meal-plan"),
    Act.waitForLoadState "networkidle",
    Act.waitForTimeout 2000,
    Act.screenshot "meal-plan-view.png" true,
    Act.print "Screenshot saved to meal-plan-view.png",
    Act.print "Browser open for 60 seconds - you can interact with it!",
    Act.waitForTimeout 60000,
    Act.closeBrowser ]

lemma scriptBody_fill_split :
    scriptBody = preFill ++ Act.fill "input[type=\"email\"]" TEST_EMAIL :: postFill := rfl

/-- The actions preceding the Sign In `click` (source lines 11 to 19). -/
def preClick : List Act :=
  preFill ++ [Act.fill "input[type=\"email\"]" TEST_EMAIL]

/-- The actions following the Sign In `click` (source lines 21 to 38). -/
def postClick : List Act :=
  [ Act.waitForTimeout 2000,
    Act.print ("Signed in as " ++ TEST_EMAIL),
    Act.print "Navigating to meal plan...",
    Act.goto (BASE_URL ++ "/meal-plan"),
    Act.waitForLoadState "networkidle",
    Act.waitForTimeout 2000,
    Act.screenshot "meal-plan-view.png" true,
    Act.print "Screenshot saved to meal-plan-view.png",
    Act.print "Browser open for 60 seconds - you can interact with it!",
    Act.waitForTimeout 60000,
    Act.closeBrowser ]

lemma scriptBody_click_split :
    scriptBody = preClick ++ Act.click "button:has-text(\"Sign In\")" :: postClick := rfl

-- ### Claims

/-- Claim C1: in every run in which the screenshot is taken, the sign-in
navigation and its network-idle wait (positions 4 and 5 of the performed
trace) come strictly before the meal-plan navigation (position 11), whose
network-idle wait and 2000 ms settle delay (positions 12 and 13) come
strictly before the screenshot, which occurs exactly at position 14. -/
theorem C1_navigation_ordering (ok : Act → Bool)
    (hshot : Act.screenshot "meal-plan-view.png" true ∈ (runScript ok).events) :
    ((runScript ok).events)[4]? = some (Act.goto (BASE_URL ++ "/dev-signin")) ∧
    ((runScript ok).events)[5]? = some (Act.waitForLoadState "networkidle") ∧
    ((runScript ok).events)[11]? = some (Act.goto (BASE_URL ++ "/meal-plan")) ∧
    ((runScript ok).events)[12]? = some (Act.waitForLoadState "networkidle") ∧
    ((runScript ok).events)[13]? = some (Act.waitForTimeout 2000) ∧
    ((runScript ok).events)[14]? = some (Act.screenshot "meal-plan-view.png" true) ∧
    (∀ i, ((runScript ok).events)[i]? = some (Act.screenshot "meal-plan-view.png" true) →
      i = 14) := by
  have hnp : Act.screenshot "meal-plan-view.png" true ∉ preShot := by
    simp [preShot]
  have hmem : Act.screenshot "meal-plan-view.png" true ∈
      execEvents ok (preShot ++ Act.screenshot "meal-plan-view.png" true :: postShot) := by
    rw [← scriptBody_shot_split]; exact hshot
  have he : (runScript ok).events =
      preShot ++ Act.screenshot "meal-plan-view.png" true :: execEvents ok postShot := by
    show execEvents ok scriptBody = _
    rw [scriptBody_shot_split]
    exact execEvents_reaches ok _ preShot postShot hnp hmem
  refine ⟨by rw [he]; rfl, by rw [he]; rfl, by rw [he]; rfl, by rw [he]; rfl,
    by rw [he]; rfl, by rw [he]; rfl, ?_⟩
  intro i hi
  rw [he] at hi
  rcases Nat.lt_or_ge i 15 with hlt | hge
  · interval_cases i <;> first | rfl | exact Act.noConfusion (Option.some.inj hi)
  · obtain ⟨j, rfl⟩ : ∃ j, i = j + 15 := ⟨i - 15, by omega⟩
    rw [show preShot ++ Act.screenshot "meal-plan-view.png" true :: execEvents ok postShot =
        (preShot ++ [Act.screenshot "meal-plan-view.png" true]) ++ execEvents ok postShot
      from by simp] at hi
    rw [List.getElem?_append_right (by simp [preShot])] at hi
    have hT : (execEvents ok postShot)[j]? =
        some (Act.screenshot "meal-plan-view.png" true) := by
      simpa [preShot] using hi
    have h3 := mem_of_mem_execEvents ok postShot _ (mem_of_lookup _ _ _ hT)
    simp [postShot] at h3

/-- Witness for C1 at the all-successful environment. -/
theorem C1_navigation_ordering_witness :
    Act.screenshot "meal-plan-view.png" true ∈ (runScript (fun _ => true)).events ∧
    ((runScript (fun _ => true)).events)[14]? =
      some (Act.screenshot "meal-plan-view.png" true) := by
  have hall : (runScript (fun _ => true)).events = scriptBody :=
    execEvents_of_succeeds (fun _ => true) scriptBody rfl
  have hmem : Act.screenshot "meal-plan-view.png" true ∈ (runScript (fun _ => true)).events := by
    rw [hall]; simp [scriptBody]
  exact ⟨hmem, (C1_navigation_ordering (fun _ => true) hmem).2.2.2.2.2.1⟩

/-- Claim C2: if the environment makes the email fill or the Sign In click
fail (element absent within the lookup timeout), the process exits with a
non-zero status, no screenshot action is performed, and the filesystem is
left exactly as it was. -/
theorem C2_missing_element_fatal (ok : Act → Bool)
    (h : ok (Act.fill "input[type=\"email\"]" TEST_EMAIL) = false ∨
         ok (Act.click "button:has-text(\"Sign In\")") = false) :
    (runScript ok).exitCode ≠ 0 ∧
    (∀ p b, Act.screenshot p b ∉ (runScript ok).events) ∧
    (∀ shot fs, runFS ok shot fs = fs) := by
  have hnoshot : ∀ p b, Act.screenshot p b ∉ (runScript ok).events := by
    intro p b
    rcases h with hf | hc
    · have hstep : stepOk ok (Act.fill "input[type=\"email\"]" TEST_EMAIL) = false := by
        simp [stepOk, fallible, hf]
      have h4 := not_mem_execEvents_split ok (Act.screenshot p b) _ hstep preFill postFill
        (by simp [preFill])
      rw [← scriptBody_fill_split] at h4
      exact h4
    · have hstep : stepOk ok (Act.click "button:has-text(\"Sign In\")") = false := by
        simp [stepOk, fallible, hc]
      have h4 := not_mem_execEvents_split ok (Act.screenshot p b) _ hstep preClick postClick
        (by simp [preClick, preFill])
      rw [← scriptBody_click_split] at h4
      exact h4
  have hfail : execSucceeds ok scriptBody = false := by
    rcases h with hf | hc
    · exact execSucceeds_false_of_mem ok (Act.fill "input[type=\"email\"]" TEST_EMAIL)
        (by simp [stepOk, fallible, hf]) scriptBody (by simp [scriptBody])
    · exact execSucceeds_false_of_mem ok (Act.click "button:has-text(\"Sign In\")")
        (by simp [stepOk, fallible, hc]) scriptBody (by simp [scriptBody])
  refine ⟨?_, hnoshot, ?_⟩
  · have h1 : (runScript ok).exitCode = 1 := by simp [runScript, hfail]
    simp [h1]
  · intro shot fs
    have hno : ∀ a ∈ (runScript ok).events, isShot a = false := by
      intro a ha
      cases a <;> first | rfl | exact absurd ha (hnoshot _ _)
    exact foldl_applyEvent_of_no_shot shot _ hno fs

/-- Witness for C2 at the all-failing environment. -/
theorem C2_missing_element_fatal_witness :
    ((fun _ : Act => false) (Act.fill "input[type=\"email\"]" TEST_EMAIL) = false ∨
     (fun _ : Act => false) (Act.click "button:has-text(\"Sign In\")") = false) ∧
    (runScript (fun _ => false)).exitCode ≠ 0 :=
  ⟨Or.inl rfl, (C2_missing_element_fatal (fun _ => false) (Or.inl rfl)).1⟩

/-- Claim C3: any email value the script fills into the sign-in form is the
one literal string of the source, independently of the environment. -/
theorem C3_fixed_email (ok : Act → Bool) (sel v : String)
    (h : Act.fill sel v ∈ (runScript ok).events) :
    v = TEST_EMAIL ∧ TEST_EMAIL = "test-e2e-b1549ea6@example.com" ∧
    sel = "input[type=\"email\"]" := by
  have h2 := mem_of_mem_execEvents ok scriptBody _ h
  simp only [scriptBody, List.mem_cons, List.not_mem_nil, or_false] at h2
  rcases h2 with h2 | h2 | h2 | h2 | h2 | h2 | h2 | h2 | h2 | h2 | h2 | h2 | h2 | h2 | h2 |
    h2 | h2 | h2 | h2
  all_goals first
    | exact Act.noConfusion h2
    | (injection h2 with hs hv; exact ⟨hv, rfl, hs⟩)

/-- Witness for C3 at the all-successful environment. -/
theorem C3_fixed_email_witness :
    Act.fill "input[type=\"email\"]" TEST_EMAIL ∈ (runScript (fun _ => true)).events ∧
    TEST_EMAIL = "test-e2e-b1549ea6@example.com" := by
  have hall : (runScript (fun _ => true)).events = scriptBody :=
    execEvents_of_succeeds (fun _ => true) scriptBody rfl
  have hmem : Act.fill "input[type=\"email\"]" TEST_EMAIL ∈ (runScript (fun _ => true)).events := by
    rw [hall]; simp [scriptBody]
  exact ⟨hmem, (C3_fixed_email (fun _ => true) _ _ hmem).2.1⟩

/-- A fully successful run leaves the filesystem updated at exactly the
fixed screenshot path. -/
lemma runFS_of_success (ok : Act → Bool) (shot : String) (fs : String → Option String)
    (h : execSucceeds ok scriptBody = true) :
    runFS ok shot fs = fun q => if q = "meal-plan-view.png" then some shot else fs q := by
  have hall : (runScript ok).events = scriptBody := execEvents_of_succeeds ok scriptBody h
  show ((runScript ok).events).foldl (applyEvent shot) fs = _
  rw [hall]
  rfl

/-- Claim C4: each successful run performs exactly one screenshot, always a
full-page capture at the fixed path, and two successful runs in a row leave
the filesystem with the second image at that one path and everything else
untouched. -/
theorem C4_output_overwrite (ok1 ok2 : Act → Bool) (shot1 shot2 : String)
    (fs0 : String → Option String)
    (h1 : (runScript ok1).exitCode = 0) (h2 : (runScript ok2).exitCode = 0) :
    ((runScript ok2).events).countP isShot = 1 ∧
    (∀ p b, Act.screenshot p b ∈ (runScript ok2).events →
      p = "meal-plan-view.png" ∧ b = true) ∧
    runFS ok2 shot2 (runFS ok1 shot1 fs0) "meal-plan-view.png" = some shot2 ∧
    (∀ q, q ≠ "meal-plan-view.png" → runFS ok2 shot2 (runFS ok1 shot1 fs0) q = fs0 q) := by
  have hs1 : execSucceeds ok1 scriptBody = true := (exitCode_eq_zero ok1).mp h1
  have hs2 : execSucceeds ok2 scriptBody = true := (exitCode_eq_zero ok2).mp h2
  have hall2 : (runScript ok2).events = scriptBody := execEvents_of_succeeds ok2 scriptBody hs2
  refine ⟨by rw [hall2]; rfl, ?_, ?_, ?_⟩
  · intro p b hmem
    rw [hall2] at hmem
    simp only [scriptBody, List.mem_cons, List.not_mem_nil, or_false] at hmem
    rcases hmem with h3 | h3 | h3 | h3 | h3 | h3 | h3 | h3 | h3 | h3 | h3 | h3 | h3 | h3 |
      h3 | h3 | h3 | h3 | h3
    all_goals first
      | exact Act.noConfusion h3
      | (injection h3 with hp hb; exact ⟨hp, hb⟩)
  · rw [runFS_of_success ok2 shot2 _ hs2]
    simp
  · intro q hq
    rw [runFS_of_success ok2 shot2 _ hs2, runFS_of_success ok1 shot1 _ hs1]
    simp [hq]

/-- Witness for C4: two successful runs overwrite the single output file. -/
theorem C4_output_overwrite_witness :
    (runScript (fun _ => true)).exitCode = 0 ∧
    runFS (fun _ => true) "second" (runFS (fun _ => true) "first" (fun _ => none))
      "meal-plan-view.png" = some "second" :=
  ⟨rfl,
    (C4_output_overwrite (fun _ => true) (fun _ => true) "first" "second"
      (fun _ => none) rfl rfl).2.2.1⟩

/-- Claim C5: every navigation the script performs targets one of the two
fixed URLs under the single fixed base URL. -/
theorem C5_fixed_urls (ok : Act → Bool) (url : String)
    (h : Act.goto url ∈ (runScript ok).events) :
    (url = BASE_URL ++ "/dev-signin" ∨ url = BASE_URL ++ "/meal-plan") ∧
    BASE_URL = "http://localhost:3456" := by
  have h2 := mem_of_mem_execEvents ok scriptBody _ h
  simp only [scriptBody, List.mem_cons, List.not_mem_nil, or_false] at h2
  rcases h2 with h2 | h2 | h2 | h2 | h2 | h2 | h2 | h2 | h2 | h2 | h2 | h2 | h2 | h2 | h2 |
    h2 | h2 | h2 | h2
  all_goals first
    | exact Act.noConfusion h2
    | (injection h2 with hu; exact ⟨Or.inl hu, rfl⟩)
    | (injection h2 with hu; exact ⟨Or.inr hu, rfl⟩)

/-- Witness for C5 at the all-successful environment. -/
theorem C5_fixed_urls_witness :
    Act.goto (BASE_URL ++ "/dev-signin") ∈ (runScript (fun _ => true)).events ∧
    BASE_URL = "http://localhost:3456" := by
  have hall : (runScript (fun _ => true)).events = scriptBody :=
    execEvents_of_succeeds (fun _ => true) scriptBody rfl
  have hmem : Act.goto (BASE_URL ++ "/dev-signin") ∈ (runScript (fun _ => true)).events := by
    rw [hall]; simp [scriptBody]
  exact ⟨hmem, (C5_fixed_urls (fun _ => true) _ hmem).2⟩

/-- Claim C6: the browser launch is always non-headless and the context
viewport is always 1600 by 1000; a successful run actually performs the
launch, the context creation, and the full-page screenshot. -/
theorem C6_visible_browser_fixed_viewport (ok : Act → Bool) :
    (∀ hl, Act.launch hl ∈ (runScript ok).events → hl = false) ∧
    (∀ w hgt, Act.newContext w hgt ∈ (runScript ok).events → w = 1600 ∧ hgt = 1000) ∧
    ((runScript ok).exitCode = 0 →
      Act.launch false ∈ (runScript ok).events ∧
      Act.newContext 1600 1000 ∈ (runScript ok).events ∧
      Act.screenshot "meal-plan-view.png" true ∈ (runScript ok).events) := by
  refine ⟨?_, ?_, ?_⟩
  · intro hl hmem
    have h2 := mem_of_mem_execEvents ok scriptBody _ hmem
    simp [scriptBody] at h2
    exact h2
  · intro w hgt hmem
    have h2 := mem_of_mem_execEvents ok scriptBody _ hmem
    simp [scriptBody] at h2
    exact h2
  · intro h0
    have hall : (runScript ok).events = scriptBody :=
      execEvents_of_succeeds ok scriptBody ((exitCode_eq_zero ok).mp h0)
    rw [hall]
    exact ⟨by simp [scriptBody], by simp [scriptBody], by simp [scriptBody]⟩

/-- Witness for C6: the successful run performs the visible launch. -/
theorem C6_visible_browser_fixed_viewport_witness :
    Act.launch false ∈ (runScript (fun _ => true)).events :=
  ((C6_visible_browser_fixed_viewport (fun _ => true)).2.2 rfl).1

/-- The sleep duration of an action, when it is a sleep. -/
def timeoutMs : Act → Option Nat
  | Act.waitForTimeout ms => some ms
  | _ => none

/-- Claim C7: a completed run performs exactly the three sleeps 2000 ms,
2000 ms and 60000 ms, in that order, at the stated positions of the
sequential trace: right after the click, right after the meal-plan
network-idle wait, and after the screenshot but before the close. -/
theorem C7_three_fixed_sleeps (ok : Act → Bool) (h : (runScript ok).exitCode = 0) :
    ((runScript ok).events).filterMap timeoutMs = [2000, 2000, 60000] ∧
    ((runScript ok).events)[7]? = some (Act.click "button:has-text(\"Sign In\")") ∧
    ((runScript ok).events)[8]? = some (Act.waitForTimeout 2000) ∧
    ((runScript ok).events)[12]? = some (Act.waitForLoadState "networkidle") ∧
    ((runScript ok).events)[13]? = some (Act.waitForTimeout 2000) ∧
    ((runScript ok).events)[14]? = some (Act.screenshot "meal-plan-view.png" true) ∧
    ((runScript ok).events)[17]? = some (Act.waitForTimeout 60000) ∧
    ((runScript ok).events)[18]? = some Act.closeBrowser ∧
    ((runScript ok).events).length = 19 := by
  have hall : (runScript ok).events = scriptBody :=
    execEvents_of_succeeds ok scriptBody ((exitCode_eq_zero ok).mp h)
  rw [hall]
  exact ⟨rfl, rfl, rfl, rfl, rfl, rfl, rfl, rfl, rfl⟩

/-- Witness for C7 at the all-successful environment. -/
theorem C7_three_fixed_sleeps_witness :
    ((runScript (fun _ => true)).events).filterMap timeoutMs = [2000, 2000, 60000] :=
  (C7_three_fixed_sleeps (fun _ => true) rfl).1

/-- Claim C8: on every exit path, successful or failing, the trace ends with
the driver stop performed by the `with` block, which releases the browser
and its context; a completed run additionally performs the explicit
`browser.close()`. -/
theorem C8_browser_released_on_all_paths (ok : Act → Bool) :
    (fullTrace ok).getLast? = some Act.stopDriver ∧
    releasesBrowser Act.stopDriver = true ∧
    (∃ a ∈ fullTrace ok, releasesBrowser a = true) ∧
    ((runScript ok).exitCode = 0 → Act.closeBrowser ∈ (runScript ok).events) := by
  refine ⟨?_, rfl, ?_, ?_⟩
  · show ((runScript ok).events ++ [Act.stopDriver]).getLast? = some Act.stopDriver
    exact List.getLast?_concat _
  · exact ⟨Act.stopDriver, by simp [fullTrace, runScript], rfl⟩
  · intro h0
    have hall : (runScript ok).events = scriptBody :=
      execEvents_of_succeeds ok scriptBody ((exitCode_eq_zero ok).mp h0)
    rw [hall]; simp [scriptBody]

/-- Witness for C8: the completed run also performs the explicit close. -/
theorem C8_browser_released_on_all_paths_witness :
    Act.closeBrowser ∈ (runScript (fun _ => true)).events :=
  (C8_browser_released_on_all_paths (fun _ => true)).2.2.2 rfl

/-- Claim C9: the script reads no per-invocation input: two environments
that answer identically produce identical runs, every run performs an
initial segment of the one fixed literal action list, and a completed run
performs exactly that list. -/
theorem C9_no_external_input :
    (∀ ok1 ok2 : Act → Bool, (∀ a, ok1 a = ok2 a) → runScript ok1 = runScript ok2) ∧
    (∀ ok : Act → Bool, ∃ n, (runScript ok).events = scriptBody.take n) ∧
    (∀ ok : Act → Bool, (runScript ok).exitCode = 0 → (runScript ok).events = scriptBody) := by
  refine ⟨?_, ?_, ?_⟩
  · intro ok1 ok2 hsame
    rw [funext hsame]
  · intro ok
    exact execEvents_eq_take ok scriptBody
  · intro ok h0
    exact execEvents_of_succeeds ok scriptBody ((exitCode_eq_zero ok).mp h0)

/-- Witness for C9: the completed run performs exactly the fixed list. -/
theorem C9_no_external_input_witness :
    (runScript (fun _ => true)).events = scriptBody :=
  C9_no_external_input.2.2 (fun _ => true) rfl

/-- Claim C10: once the Sign In click has succeeded, the 2000 ms wait and
the success message print follow unconditionally at the very next two
positions of the trace; no page inspection stands between them. -/
theorem C10_unconditional_success_message (ok : Act → Bool)
    (h : Act.click "button:has-text(\"Sign In\")" ∈ (runScript ok).events) :
    ((runScript ok).events)[7]? = some (Act.click "button:has-text(\"Sign In\")") ∧
    ((runScript ok).events)[8]? = some (Act.waitForTimeout 2000) ∧
    ((runScript ok).events)[9]? = some (Act.print ("Signed in as " ++ TEST_EMAIL)) ∧
    Act.print ("Signed in as " ++ TEST_EMAIL) ∈ (runScript ok).events := by
  have hnp : Act.click "button:has-text(\"Sign In\")" ∉ preClick := by
    simp [preClick, preFill]
  have hmem : Act.click "button:has-text(\"Sign In\")" ∈
      execEvents ok (preClick ++ Act.click "button:has-text(\"Sign In\")" :: postClick) := by
    rw [← scriptBody_click_split]; exact h
  have he : (runScript ok).events =
      preClick ++ Act.click "button:has-text(\"Sign In\")" :: execEvents ok postClick := by
    show execEvents ok scriptBody = _
    rw [scriptBody_click_split]
    exact execEvents_reaches ok _ preClick postClick hnp hmem
  have h9 : ((runScript ok).events)[9]? = some (Act.print ("Signed in as " ++ TEST_EMAIL)) := by
    rw [he]; rfl
  exact ⟨by rw [he]; rfl, by rw [he]; rfl, h9, mem_of_lookup _ 9 _ h9⟩

/-- Witness for C10 at the all-successful environment. -/
theorem C10_unconditional_success_message_witness :
    Act.click "button:has-text(\"Sign In\")" ∈ (runScript (fun _ => true)).events ∧
    Act.print ("Signed in as " ++ TEST_EMAIL) ∈ (runScript (fun _ => true)).events := by
  have hall : (runScript (fun _ => true)).events = scriptBody :=
    execEvents_of_succeeds (fun _ => true) scriptBody rfl
  have hmem : Act.click "button:has-text(\"Sign In\")" ∈ (runScript (fun _ => true)).events := by
    rw [hall]; simp [scriptBody]
  exact ⟨hmem, (C10_unconditional_success_message (fun _ => true) hmem).2.2.2⟩
